import Mathlib

/-!
Verification of the bar-record enrichment pipeline of the `stockholm-bars`
repository, shallowly embedded in Lean 4.

The embedded code comes from:
* `scripts/geocode-bars-from-csv.js` (two variants in one file: a Photon
  variant and a Mapbox variant),
* `scripts/update-bars-from-google-places.js`,
* `scripts/categorize-bars-by-mood.js`,
* the unnamed CSV-export script (`escapeCsv`, the `bars-info.csv` writer).

JavaScript strings are modelled by `String`; a missing / `null` /
`undefined` string field is modelled by `""` (the only falsy string),
matching how the scripts use `||` chains on these fields.  JavaScript
numbers occurring here (coordinates, ratings) are modelled by `Rat`; a
`null` or `NaN` number is modelled by `none : Option Rat`.  Remote HTTP
services are modelled by explicit oracle functions passed to the step
functions; a thrown exception in a remote call is an `Except.error`.
-/

/-- Model of JavaScript `String.prototype.trim` (whitespace stripped from
both ends).  Lean's `Char.isWhitespace` covers space, tab, CR and LF, the
whitespace that occurs in the pipeline's data. -/
def jsTrim (s : String) : String :=
  String.mk (((s.data.dropWhile Char.isWhitespace).reverse.dropWhile Char.isWhitespace).reverse)

/-- Model of JavaScript `a || b` on strings: `""` is the only falsy string. -/
def jsOrS (a b : String) : String := if a = "" then b else a

/-- Model of `.replace(/^"|"$/g, '')`: removes one leading and one trailing
double-quote character (each at most once, anchored). -/
def stripQuotes (s : String) : String :=
  let l := s.data
  let l1 := if l.head? = some '"' then l.tail else l
  let l2 := if l1.getLast? = some '"' then l1.dropLast else l1
  String.mk l2

/-- Model of `/^null$/i.test(s)`: the whole string equals `null` up to
ASCII case. -/
def isNullLiteral (s : String) : Bool :=
  s.data.map Char.toLower == "null".data

/-- Model of `.toLowerCase()` (ASCII, which is all the sources rely on). -/
def jsToLower (s : String) : String := String.mk (s.data.map Char.toLower)

/-- Replaces every maximal run of whitespace by the single character `rep`
(model of `.replace(/\s+/g, rep)`); the flag tracks whether the previous
character was inside a whitespace run. -/
def replaceWsRuns (rep : Char) : List Char → Bool → List Char
  | [], _ => []
  | c :: rest, inRun =>
    if Char.isWhitespace c then
      if inRun then replaceWsRuns rep rest true
      else rep :: replaceWsRuns rep rest true
    else c :: replaceWsRuns rep rest false

/-- `addressKey` from `geocode-bars-from-csv.js` (line 35):
`loc.trim().replace(/\s+/g, ' ')` (empty for a missing value). -/
def addressKey (loc : String) : String :=
  String.mk (replaceWsRuns ' ' (jsTrim loc).data false)

/-- `barName.toLowerCase().replace(/\s+/g, '-')`, the fallback id. -/
def slugify (s : String) : String :=
  String.mk (replaceWsRuns '-' (jsToLower s).data false)

/-- Address resolution of the Photon variant of `geocode-bars-from-csv.js`
(line 113): `(row.correct_address || row.location || row.address || '')
.trim().replace(/^"|"$/g, '')`. -/
def resolveLocation (correct location address : String) : String :=
  stripQuotes (jsTrim (jsOrS correct (jsOrS location address)))

/-- The guard of the Photon variant's geocoding block (line 118):
`location && location.length > 2 && !/^null$/i.test(location)`. -/
def shouldGeocodeB (location : String) : Bool :=
  if location = "" then false
  else if location.length > 2 then
    (if isNullLiteral location = true then false else true)
  else false

/-- The early-return guard inside `geocodePhoton` (line 74): a remote
request is issued only when
`!(!address || !address.trim() || /^null$/i.test(address))`. -/
def photonAttempts (address : String) : Bool :=
  if address = "" ∨ jsTrim address = "" ∨ isNullLiteral address = true then false else true

/-- A coordinate pair as returned by the geocoders (`[lng, lat]` order in
Photon/Mapbox responses). -/
structure Coord where
  lng : Rat
  lat : Rat
deriving Repr, DecidableEq

/-- Run-scoped state of the Photon main loop: the `coordCache` map (as an
insertion-ordered association list) and a log of the remote requests
actually issued (one normalized address key per request). -/
structure GeoRun where
  cache : List (String × Coord) := []
  calls : List String := []
deriving Repr, DecidableEq

/-- `coordCache.get(key)` / `coordCache.has(key)` on the association-list
model of the `Map`. -/
def lookupCache (cache : List (String × Coord)) (k : String) : Option Coord :=
  match cache.find? (fun p => p.1 == k) with
  | some p => some p.2
  | none => none

/-- One input row as consumed by the geocoding / places scripts.  String
fields default to `""` (missing); `lat`/`lng` hold the already-parsed
numeric value, `none` standing for `null`/`NaN`. -/
structure CsvRow where
  id : String := ""
  bar_name : String := ""
  name : String := ""
  location : String := ""
  address : String := ""
  correct_address : String := ""
  lat : Option Rat := none
  lng : Option Rat := none
  price : String := ""
  opening_hours : String := ""
  dance_floor : String := ""
  dance_notes : String := ""
  last_updated : String := ""
deriving Repr, DecidableEq

/-- The cache-update block of the Photon variant's main loop
(`geocode-bars-from-csv.js` lines 119-125): look up `addressKey location`
in the cache; on a miss call `geocodePhoton(location)` (which issues a
remote request only past its own guard) and cache the coordinate only when
one was found. -/
def photonCacheUpdate (geo : String → Option Coord) (st : GeoRun) (location : String) :
    GeoRun :=
  let key := addressKey location
  if (lookupCache st.cache key).isSome then st
  else if photonAttempts location = true then
    match geo location with
    | some c => { cache := st.cache ++ [(key, c)], calls := st.calls ++ [key] }
    | none => { st with calls := st.calls ++ [key] }
  else st

/-- One iteration of the Photon variant's main loop
(`geocode-bars-from-csv.js` lines 111-128), restricted to the geocoding
state and the row's resulting coordinates: the cached coordinate, when
present after the update, overwrites the row's `lat`/`lng`. -/
def photonStep (geo : String → Option Coord) (st : GeoRun) (row : CsvRow) :
    GeoRun × Option Rat × Option Rat :=
  let location := resolveLocation row.correct_address row.location row.address
  if shouldGeocodeB location = true then
    let st1 := photonCacheUpdate geo st location
    match lookupCache st1.cache (addressKey location) with
    | some c => (st1, some c.lat, some c.lng)
    | none => (st1, row.lat, row.lng)
  else (st, row.lat, row.lng)

/-- The Photon variant's main loop over all rows, threading the cache and
collecting each row's final coordinates. -/
def photonRunAux (geo : String → Option Coord) (st : GeoRun)
    (acc : List (Option Rat × Option Rat)) :
    List CsvRow → GeoRun × List (Option Rat × Option Rat)
  | [] => (st, acc)
  | row :: rest =>
    let r := photonStep geo st row
    photonRunAux geo r.1 (acc ++ [r.2]) rest

/-- A whole Photon-variant run starting from the empty cache. -/
def photonRun (geo : String → Option Coord) (rows : List CsvRow) :
    GeoRun × List (Option Rat × Option Rat) :=
  photonRunAux geo { cache := [], calls := [] } [] rows

/-- The run-lifetime memoization invariant of the Photon loop: for every
normalized address key, the number of remote requests issued so far is
bounded by `1` when the key has been cached and by `0` otherwise. -/
def memoInv (st : GeoRun) : Prop :=
  ∀ k : String, st.calls.count k ≤ (if (lookupCache st.cache k).isSome then 1 else 0)

/-- Address resolution of `update-bars-from-google-places.js` (line 201):
`(row.correct_address || '').trim().replace(/^"|"$/g, '') || null`. -/
def updCorrectAddr (correct : String) : String :=
  stripQuotes (jsTrim correct)

/-- `update-bars-from-google-places.js` line 202: `correctAddr ||
(row.address || row.location || '').trim().replace(/^"|"$/g, '') || null`. -/
def updOutAddress (correct address location : String) : String :=
  jsOrS (updCorrectAddr correct) (stripQuotes (jsTrim (jsOrS address location)))

/-- Truthiness of an optional JavaScript number: `null`/`NaN` (modelled
`none`) and `0` are falsy. -/
def jsFalsyNum (x : Option Rat) : Bool := if x = none ∨ x = some 0 then true else false

/-- The Mapbox variant's geocoding guard (`geocode-bars-from-csv.js` line
261): `location && (!lat || !lng || (lat === 59.31667 && lng === 18.06745))`. -/
def mapboxNeedsGeocode (location : String) (lat lng : Option Rat) : Bool :=
  if location ≠ "" ∧ (jsFalsyNum lat = true ∨ jsFalsyNum lng = true ∨
      (lat = some (59.31667 : Rat) ∧ lng = some (18.06745 : Rat))) then true else false

/-- One iteration of the Mapbox variant's main loop (lines 254-268),
restricted to the row's resulting coordinates: geocode only when the guard
fires, and keep the row's coordinates when the lookup fails. -/
def mapboxStep (geo : String → Option Coord) (row : CsvRow) : Option Rat × Option Rat :=
  let location := stripQuotes (jsTrim row.location)
  if mapboxNeedsGeocode location row.lat row.lng = true then
    match geo location with
    | some c => (some c.lat, some c.lng)
    | none => (row.lat, row.lng)
  else (row.lat, row.lng)

/-- The closed mood vocabulary (`MOODS` in `categorize-bars-by-mood.js`). -/
def MOODS : List String :=
  ["first_date", "third_date", "chill_date", "party_night", "chill_hangout",
   "group_friends", "cheap_night_out"]

/-- `arr.filter((m) => MOODS.includes(m))` from `classifyBarWithOpenAI`
(line 125). -/
def filterMoods (labels : List String) : List String :=
  labels.filter (fun m => decide (m ∈ MOODS))

/-- The value returned by `classifyBarWithOpenAI` as a function of the
parsed JSON array extracted from the LLM response: `none` stands for "no
`[...]` match / JSON parse failure / parsed value not an array", each of
which returns `[]`; otherwise the parsed labels filtered against the
vocabulary. -/
def classifyResult (parsed : Option (List String)) : List String :=
  match parsed with
  | none => []
  | some arr => filterMoods arr

/-- The assignment `bar.moods = moods.length ? moods : (bar.moods || [])`
(`categorize-bars-by-mood.js` line 193); the prior `moods` field is
`Option (List String)` (`none` = absent, per the data model). -/
def assignMoods (prior : Option (List String)) (classified : List String) :
    Option (List String) :=
  if classified.isEmpty then some (prior.getD []) else some classified

/-- A bar record as consumed by the mood-categorization loop, restricted
to the fields that loop touches or reads for control flow. -/
structure MoodBar where
  place_id : Option String := none
  moods : Option (List String) := none
deriving Repr, DecidableEq

/-- One iteration of the mood-categorization loop (lines 190-199): a
successful classification call assigns the (filtered) labels or keeps the
prior value when none survive; a thrown call (`Except.error`) lands in the
`catch` branch, `bar.moods = bar.moods || []`. -/
def categorizeStep (res : Except Unit (Option (List String))) (bar : MoodBar) : MoodBar :=
  match res with
  | Except.ok parsed => { bar with moods := assignMoods bar.moods (classifyResult parsed) }
  | Except.error _ => { bar with moods := some (bar.moods.getD []) }

/-- The mood-categorization loop over the whole list, the oracle indexed
by row position. -/
def categorizeRunAux (orc : Nat → Except Unit (Option (List String))) :
    Nat → List MoodBar → List MoodBar
  | _, [] => []
  | i, b :: rest => categorizeStep (orc i) b :: categorizeRunAux orc (i + 1) rest

/-- A whole categorization run. -/
def categorizeRun (orc : Nat → Except Unit (Option (List String)))
    (bars : List MoodBar) : List MoodBar :=
  categorizeRunAux orc 0 bars

/-- `rating != null && rating >= 4.2` from `deriveVibes`. -/
def ratingHigh : Option Rat → Bool
  | none => false
  | some r => if (4.2 : Rat) ≤ r then true else false

/-- `[...new Set(vibes)]`: first-occurrence de-duplication. -/
def jsSetDedupAux : List String → List String → List String
  | [], _ => []
  | x :: rest, seen =>
    if x ∈ seen then jsSetDedupAux rest seen else x :: jsSetDedupAux rest (x :: seen)

/-- `[...new Set(vibes)]` on an initial empty seen-set. -/
def jsSetDedup (l : List String) : List String := jsSetDedupAux l []

/-- `deriveVibes` from `update-bars-from-google-places.js` (lines 144-155):
`dance_floor === 'yes'` (lower-cased) pushes `party`, `girls-night`; a
rating at or above `4.2` pushes `dating`, `chill`; default `chill`;
de-duplicated via `Set`. -/
def deriveVibes (dance_floor : String) (rating : Option Rat) : List String :=
  let dance := jsToLower dance_floor
  let vibes1 := if dance = "yes" then ["party", "girls-night"] else []
  let vibes2 := if ratingHigh rating = true then vibes1 ++ ["dating", "chill"] else vibes1
  let vibes3 := if vibes2.isEmpty then ["chill"] else vibes2
  jsSetDedup vibes3

/-- Truthiness of an optional JavaScript string: `null`/`undefined`
(modelled `none`) and `""` are falsy. -/
def jsSomeStr : Option String → Bool
  | some s => if s = "" then false else true
  | none => false

/-- The first Places candidate as returned by `findPlaceFromText`. -/
structure PlaceHit where
  formatted_address : Option String := none
  lat : Option Rat := none
  lng : Option Rat := none
  place_id : Option String := none
deriving Repr, DecidableEq

/-- `place?.formatted_address && place.lat != null && place.lng != null`
(`update-bars-from-google-places.js` line 206). -/
def placeHasFix (place : Option PlaceHit) : Bool :=
  match place with
  | some p =>
    if jsSomeStr p.formatted_address = true ∧ p.lat ≠ none ∧ p.lng ≠ none then true else false
  | none => false

/-- The output record of the Places-update loop, restricted to the fields
the claims are about (`price`, `opening_hours`, `photo_reference`, … are
carried through analogously and omitted here). -/
structure UpdBar where
  id : String
  bar_name : String
  location : String
  lat : Option Rat
  lng : Option Rat
  dance_floor : String
  vibes : List String
  place_id : Option String
  correct_address : Option String
deriving Repr, DecidableEq

/-- One iteration of the Places-update loop
(`update-bars-from-google-places.js` lines 184-249).  `lookup` is the
outcome of `findPlaceFromText` (`Except.error` = thrown, caught by the
per-row `catch`, leaving `place = null`); `detailRating` is the rating the
optional `getPlaceDetails` call produced, if any (its own failures are
swallowed). -/
def updateStep (row : CsvRow) (lookup : Except String (Option PlaceHit))
    (detailRating : Option Rat) : UpdBar :=
  let barName := stripQuotes (jsOrS (jsOrS row.bar_name row.name) "Unknown")
  let place : Option PlaceHit :=
    match lookup with
    | Except.ok p => p
    | Except.error _ => none
  let correctAddr := updCorrectAddr row.correct_address
  let outAddress := updOutAddress row.correct_address row.address row.location
  let lat := if placeHasFix place = true then place.bind PlaceHit.lat else row.lat
  let lng := if placeHasFix place = true then place.bind PlaceHit.lng else row.lng
  let fa :=
    match place with
    | some p => p.formatted_address.getD ""
    | none => ""
  let finalAddress := jsTrim (jsOrS fa (jsOrS correctAddr outAddress))
  let placeRating :=
    match place with
    | some p => if jsSomeStr p.place_id = true then detailRating else none
    | none => none
  { id := jsOrS row.id (slugify barName)
    bar_name := barName
    location := jsOrS finalAddress outAddress
    lat := lat
    lng := lng
    dance_floor := jsToLower (jsOrS row.dance_floor "unknown")
    vibes := deriveVibes row.dance_floor placeRating
    place_id :=
      match place with
      | some p => if jsSomeStr p.place_id = true then p.place_id else none
      | none => none
    correct_address :=
      match place with
      | some p => if jsSomeStr p.formatted_address = true then p.formatted_address else none
      | none => none }

/-- The Places-update loop over all rows, the oracles indexed by row
position. -/
def updateRunAux (lookups : Nat → Except String (Option PlaceHit))
    (details : Nat → Option Rat) : Nat → List CsvRow → List UpdBar
  | _, [] => []
  | i, row :: rest => updateStep row (lookups i) (details i) :: updateRunAux lookups details (i + 1) rest

/-- A whole Places-update run. -/
def updateRun (lookups : Nat → Except String (Option PlaceHit))
    (details : Nat → Option Rat) (rows : List CsvRow) : List UpdBar :=
  updateRunAux lookups details 0 rows

/-- Outcome of one script process: `fatal code` models `process.exit(code)`
taken before any row is processed and before any output file is written;
`completed out` models a run that reached the final writes, `out` being
what is written. -/
inductive ScriptResult (α : Type) where
  | fatal (exitCode : Nat)
  | completed (output : α)
deriving Repr, DecidableEq

/-- `main` of the Photon variant of `geocode-bars-from-csv.js` (lines
92-106 for the preconditions): a missing/unreadable input (`none`) exits
with status 1 before the loop and before `bars.json` is written. -/
def photonMain (geo : String → Option Coord) (input : Option (List CsvRow)) :
    ScriptResult (GeoRun × List (Option Rat × Option Rat)) :=
  match input with
  | none => ScriptResult.fatal 1
  | some rows => ScriptResult.completed (photonRun geo rows)

/-- `main` of the Mapbox variant (lines 237-251 for the preconditions):
a missing token, then a missing CSV, exit with status 1 before any row. -/
def mapboxMain (token : String) (geo : String → Option Coord)
    (input : Option (List CsvRow)) : ScriptResult (List (Option Rat × Option Rat)) :=
  if token = "" then ScriptResult.fatal 1
  else
    match input with
    | none => ScriptResult.fatal 1
    | some rows => ScriptResult.completed (rows.map (mapboxStep geo))

/-- `main` of `update-bars-from-google-places.js` (lines 157-176 for the
preconditions): missing API key, then missing input, exit with status 1
before any row and before `bars.json` / `bars-info-updated.csv` are
written. -/
def updateMain (apiKey : String) (lookups : Nat → Except String (Option PlaceHit))
    (details : Nat → Option Rat) (input : Option (List CsvRow)) :
    ScriptResult (List UpdBar) :=
  if apiKey = "" then ScriptResult.fatal 1
  else
    match input with
    | none => ScriptResult.fatal 1
    | some rows => ScriptResult.completed (updateRun lookups details rows)

/-- `main` of `categorize-bars-by-mood.js` (lines 131-151 for the
preconditions): missing Google key, then missing OpenAI key, then missing
bars file, exit with status 1 before any row and before the store is
rewritten. -/
def categorizeMain (googleKey openaiKey : String)
    (orc : Nat → Except Unit (Option (List String))) (input : Option (List MoodBar)) :
    ScriptResult (List MoodBar) :=
  if googleKey = "" then ScriptResult.fatal 1
  else if openaiKey = "" then ScriptResult.fatal 1
  else
    match input with
    | none => ScriptResult.fatal 1
    | some bars => ScriptResult.completed (categorizeRun orc bars)

/-- `cur.trim()` when a parsed CSV field is pushed. -/
def clTrim (cur : List Char) : String := jsTrim (String.mk cur)

/-- The character loop of `parseCSVLine` (`geocode-bars-from-csv.js` lines
40-58): a quote toggles `inQuotes` and is dropped; a comma or newline
outside quotes ends the field (newline ends the line); everything else is
appended. -/
def parseLineAux : List Char → List Char → Bool → List String → List String
  | [], cur, _, out => if cur.isEmpty then out else out ++ [clTrim cur]
  | c :: rest, cur, inQ, out =>
    if c = '"' then parseLineAux rest cur (!inQ) out
    else if inQ = false ∧ (c = ',' ∨ c = '\n') then
      (if c = '\n' then out ++ [clTrim cur]
       else parseLineAux rest [] false (out ++ [clTrim cur]))
    else parseLineAux rest (cur ++ [c]) inQ out

/-- `parseCSVLine` from the geocoding / Places scripts. -/
def parseCSVLine (line : String) : List String :=
  parseLineAux line.data [] false []

/-- Split a character list at every occurrence of `sep`. -/
def splitCharAux (sep : Char) (l : List Char) : List Char × List (List Char) :=
  l.foldr (fun x acc => if x = sep then ([], acc.1 :: acc.2) else (x :: acc.1, acc.2))
    ([], [])

/-- All the pieces of `splitCharAux`. -/
def splitChar (sep : Char) (l : List Char) : List (List Char) :=
  (splitCharAux sep l).1 :: (splitCharAux sep l).2

/-- Drop a single trailing carriage return. -/
def stripCr (s : String) : String :=
  if s.data.getLast? = some '\r' then String.mk s.data.dropLast else s

/-- `text.split(/\r?\n/)`: split at newlines, a directly preceding CR
belonging to the separator. -/
def splitLinesJs (s : String) : List String :=
  ((splitChar '\n' s.data).map String.mk).map stripCr

/-- `parseCSV` (lines 60-71) restricted to the per-line field values: the
text is split into lines first, empty lines dropped, the first line being
the header and every further line parsed with `parseCSVLine`. -/
def parseCSVvalues (text : String) : List (List String) :=
  match (splitLinesJs text).filter (fun l => l ≠ "") with
  | [] => []
  | _header :: rest => rest.map parseCSVLine

/-- `String(s).includes(c)` for a single character. -/
def containsChar (s : String) (c : Char) : Bool := s.data.any (fun x => x == c)

/-- `.replace(/"/g, '""')`: every quote doubled. -/
def dupQuotes (s : String) : String :=
  String.mk ((s.data.map (fun c => if c = '"' then ['"', '"'] else [c])).flatten)

/-- `escapeCsv` from the unnamed export script (src/unnamed/part_001 lines
14-21): null becomes empty; the trimmed value is quoted with doubled
internal quotes when it contains a comma, quote, LF or CR, and emitted
trimmed and bare otherwise. -/
def escapeCsv : Option String → String
  | none => ""
  | some val =>
    let s := jsTrim val
    if containsChar s ',' || containsChar s '"' || containsChar s '\n' || containsChar s '\r' then
      "\"" ++ dupQuotes s ++ "\""
    else s

/-- The inline `escape` of `update-bars-from-google-places.js` (line 264):
null becomes empty; the value is quoted with doubled internal quotes when
it contains a comma or quote — newlines are not checked — and emitted
unchanged otherwise. -/
def escapeUpd : Option String → String
  | none => ""
  | some s =>
    if containsChar s ',' || containsChar s '"' then "\"" ++ dupQuotes s ++ "\"" else s

/-- `Array.prototype.join(sep)`. -/
def joinWith (sep : String) : List String → String
  | [] => ""
  | [x] => x
  | x :: y :: rest => x ++ sep ++ joinWith sep (y :: rest)

/-- The shared CSV header line of both tabular exports. -/
def infoCsvHeader : String :=
  "id,bar_name,address,correct_address,lat,lng,price,opening_hours,dance_floor,dance_notes,last_updated"

/-- The content written to `bars-info.csv` by the unnamed export script
(line 39): BOM, header, one escaped row per record (each row given here as
its already-projected field values). -/
def buildInfoCsv (rows : List (List (Option String))) : String :=
  "\uFEFF" ++ joinWith "\n" (infoCsvHeader :: rows.map (fun r => joinWith "," (r.map escapeCsv)))

/-- The content written to `bars-info-updated.csv` by
`update-bars-from-google-places.js` (line 267): header and escaped rows,
with no byte-order marker. -/
def buildUpdatedCsvContent (rows : List (List (Option String))) : String :=
  joinWith "\n" (infoCsvHeader :: rows.map (fun r => joinWith "," (r.map escapeUpd)))

/-- Whether a file content begins with the UTF-8 byte-order marker. -/
def startsWithBom (s : String) : Bool := s.data.head? == some '\uFEFF'

/-- The apostrophe character, for the spec's `O'Learys` scenario value. -/
def apos : Char := Char.ofNat 39

/-- The scenario input value `O'Learys, "Best" bar`. -/
def oLearysIn : String := String.mk ('O' :: apos :: "Learys, \"Best\" bar".data)

/-- The scenario's expected serialization `"O'Learys, ""Best"" bar"`. -/
def oLearysOut : String :=
  String.mk ('"' :: 'O' :: apos :: ("Learys, \"\"Best\"\" bar".data ++ ['"']))

/-- A row with a plain geocodable address and no coordinates. -/
def rowFoo : CsvRow := { location := "Foo Street 1" }

/-- A row that already carries good (non-placeholder) coordinates. -/
def rowGood : CsvRow :=
  { location := "Foo Street 1", lat := some (59.5 : Rat), lng := some (18.2 : Rat) }

-- The first component of `photonStep` is the cache update alone.
theorem photonStep_fst (geo : String → Option Coord) (st : GeoRun) (row : CsvRow) :
    (photonStep geo st row).1 =
      (if shouldGeocodeB (resolveLocation row.correct_address row.location row.address) = true
       then photonCacheUpdate geo st (resolveLocation row.correct_address row.location row.address)
       else st) := by
  by_cases hg :
      shouldGeocodeB (resolveLocation row.correct_address row.location row.address) = true
  · simp only [photonStep, hg, if_true]
    cases lookupCache
        (photonCacheUpdate geo st
          (resolveLocation row.correct_address row.location row.address)).cache
        (addressKey (resolveLocation row.correct_address row.location row.address)) <;> rfl
  · simp [photonStep, hg]

/-- C1: Address resolution.  (1) A `correct_address` that is non-empty
after trim and quote-strip is always the resolved address, preferred over
`location` and `address`; (2) a resolved address that is empty or equal to
the literal string `null` leaves the geocoding state and the row's
coordinates untouched (geocoding short-circuited for that row); (3) a
resolved address that is blank after a further trim issues no remote
request either; (4) the same `correct_address` precedence holds for the
Places-update script's resolver. -/
theorem resolve_address_spec :
    (∀ c l a : String, stripQuotes (jsTrim c) ≠ "" →
      resolveLocation c l a = stripQuotes (jsTrim c)) ∧
    (∀ (geo : String → Option Coord) (st : GeoRun) (row : CsvRow),
      (resolveLocation row.correct_address row.location row.address = "" ∨
       isNullLiteral (resolveLocation row.correct_address row.location row.address) = true) →
      photonStep geo st row = (st, row.lat, row.lng)) ∧
    (∀ (geo : String → Option Coord) (st : GeoRun) (row : CsvRow),
      jsTrim (resolveLocation row.correct_address row.location row.address) = "" →
      (photonStep geo st row).1.calls = st.calls) ∧
    (∀ c a l : String, updCorrectAddr c ≠ "" →
      updOutAddress c a l = updCorrectAddr c) := by
  refine ⟨?_, ?_, ?_, ?_⟩
  · intro c l a h
    have hc : c ≠ "" := by
      intro he
      subst he
      exact h rfl
    simp [resolveLocation, jsOrS, hc]
  · intro geo st row h
    have hg : shouldGeocodeB
        (resolveLocation row.correct_address row.location row.address) = false := by
      rcases h with h | h
      · simp [shouldGeocodeB, h]
      · simp only [shouldGeocodeB, h]
        split <;> simp
    simp [photonStep, hg]
  · intro geo st row h
    rw [photonStep_fst]
    by_cases hg :
        shouldGeocodeB (resolveLocation row.correct_address row.location row.address) = true
    · rw [if_pos hg]
      have hpa : photonAttempts
          (resolveLocation row.correct_address row.location row.address) = false := by
        simp [photonAttempts, h]
      unfold photonCacheUpdate
      by_cases hc : (lookupCache st.cache
          (addressKey (resolveLocation row.correct_address row.location row.address))).isSome
      · simp [hc]
      · simp [hc, hpa]
    · rw [if_neg hg]
  · intro c a l h
    simp [updOutAddress, jsOrS, h]

/-- Witness for C1 at the spec's Kvarnen scenario and at a literal-`null`
corrected address. -/
theorem resolve_address_spec_witness :
    resolveLocation "Tjärhovsgatan 4, Södermalm, Stockholm" "Hornsgatan 66" ""
      = "Tjärhovsgatan 4, Södermalm, Stockholm" ∧
    photonStep (fun _ => none) { cache := [], calls := [] } { correct_address := "null" }
      = ({ cache := [], calls := [] }, none, none) :=
  ⟨(resolve_address_spec.1 "Tjärhovsgatan 4, Södermalm, Stockholm" "Hornsgatan 66" ""
      (by decide)).trans (by decide),
   resolve_address_spec.2.1 (fun _ => none) { cache := [], calls := [] }
      { correct_address := "null" } (Or.inr (by decide))⟩

-- Looking a key up in an appended cache first consults the left part.
theorem lookupCache_append (cache l : List (String × Coord)) (k : String) :
    lookupCache (cache ++ l) k = ((lookupCache cache k).or (lookupCache l k)) := by
  unfold lookupCache
  rw [List.find?_append]
  cases h1 : List.find? (fun p => p.1 == k) cache <;>
    cases h2 : List.find? (fun p => p.1 == k) l <;> simp [Option.or]

-- Cache lookup in a singleton association list.
theorem lookupCache_singleton (key k : String) (c : Coord) :
    lookupCache [(key, c)] k = (if key == k then some c else none) := by
  by_cases h : key == k <;> simp [lookupCache, List.find?_cons, h]

-- `photonCacheUpdate` preserves the memoization invariant as long as the
-- remote geocoder answers every request.
theorem memoInv_photonCacheUpdate (geo : String → Option Coord)
    (hgeo : ∀ a, (geo a).isSome = true) (st : GeoRun) (location : String)
    (h : memoInv st) : memoInv (photonCacheUpdate geo st location) := by
  unfold photonCacheUpdate
  cases hc : (lookupCache st.cache (addressKey location)).isSome with
  | true => simpa [hc] using h
  | false =>
    simp only [hc, Bool.false_eq_true, if_false]
    by_cases hp : photonAttempts location = true
    · simp only [hp, if_true]
      have hs := hgeo location
      cases hgl : geo location with
      | none => rw [hgl] at hs; simp at hs
      | some c =>
        intro k
        have hor := lookupCache_append st.cache [(addressKey location, c)] k
        by_cases hk : addressKey location = k
        · subst hk
          have hnone : lookupCache st.cache (addressKey location) = none :=
            Option.not_isSome_iff_eq_none.mp (by simp [hc])
          have h0 : st.calls.count (addressKey location) = 0 :=
            Nat.le_zero.mp (by simpa [hnone] using h (addressKey location))
          simp [List.count_append, hor, lookupCache_singleton, hnone, h0, List.count_cons]
        · have hkf : (addressKey location == k) = false := by
            simpa using hk
          have hcnt : List.count k [addressKey location] = 0 := by
            simp [List.count_cons, hkf]
          simp only [List.count_append, hor, lookupCache_singleton, hkf,
            Bool.false_eq_true, if_false, Option.or_none, hcnt]
          simpa using h k
    · simpa [hp] using h

-- One Photon step preserves the memoization invariant.
theorem memoInv_photonStep (geo : String → Option Coord)
    (hgeo : ∀ a, (geo a).isSome = true) (st : GeoRun) (row : CsvRow)
    (h : memoInv st) : memoInv (photonStep geo st row).1 := by
  rw [photonStep_fst]
  by_cases hg :
      shouldGeocodeB (resolveLocation row.correct_address row.location row.address) = true
  · rw [if_pos hg]
    exact memoInv_photonCacheUpdate geo hgeo st _ h
  · rwa [if_neg hg]

-- The whole Photon loop preserves the memoization invariant.
theorem memoInv_photonRunAux (geo : String → Option Coord)
    (hgeo : ∀ a, (geo a).isSome = true) :
    ∀ (rows : List CsvRow) (st : GeoRun) (acc : List (Option Rat × Option Rat)),
      memoInv st → memoInv (photonRunAux geo st acc rows).1 := by
  intro rows
  induction rows with
  | nil => intro st acc h; simpa [photonRunAux] using h
  | cons row rest ih =>
    intro st acc h
    simp only [photonRunAux]
    exact ih _ _ (memoInv_photonStep geo hgeo st row h)

/-- C2 (amended): memoization of the Photon geocoder covers successful
lookups: whenever every remote request the run issues is answered with a
coordinate, at most one remote request is issued per normalized address
key over the whole run (repeats hit the cache).  The unamended claim fails
because a failed lookup is not cached — see the counterexample. -/
theorem geocode_memoization_amended :
    ∀ (geo : String → Option Coord) (rows : List CsvRow) (k : String),
      (∀ a, (geo a).isSome = true) →
      ((photonRun geo rows).1.calls.count k) ≤ 1 := by
  intro geo rows k hgeo
  have h0 : memoInv { cache := [], calls := [] } := by
    intro k'
    simp [lookupCache, List.count_nil]
  have h := memoInv_photonRunAux geo hgeo rows { cache := [], calls := [] } [] h0 k
  exact h.trans (by split <;> simp)

/-- Witness for C2 at a two-row run with an always-successful geocoder. -/
theorem geocode_memoization_amended_witness :
    ((photonRun (fun _ => some { lng := 1, lat := 1 }) [rowFoo, rowFoo]).1.calls.count
      "Foo Street 1") ≤ 1 :=
  geocode_memoization_amended (fun _ => some { lng := 1, lat := 1 }) [rowFoo, rowFoo]
    "Foo Street 1" (fun _ => rfl)

/-- C2 counterexample: with a geocoder that finds nothing for
`Foo Street 1`, two rows with that same normalized address issue two
remote requests within one run — the failed first lookup is not cached,
so the repeat does not reuse a cached result, refuting the claim that at
most one remote request is issued per normalized address. -/
theorem geocode_memoization_cex :
    ((photonRun (fun _ => none) [rowFoo, rowFoo]).1.calls.count "Foo Street 1") = 2 := by
  decide

/-- C3: mood classification validation.  Every label that survives the
classification filter is one of the seven vocabulary slugs, and when the
returned list is empty or every returned label is discarded, the
categorization step leaves a previously assigned `moods` value unchanged. -/
theorem mood_label_validation :
    ∀ (parsed : Option (List String)) (p : List String),
      (∀ m ∈ classifyResult parsed, m ∈ MOODS) ∧
      (classifyResult parsed = [] →
        (categorizeStep (Except.ok parsed) { place_id := none, moods := some p }).moods
          = some p) := by
  intro parsed p
  constructor
  · intro m hm
    cases parsed with
    | none => simp [classifyResult] at hm
    | some arr =>
      simp only [classifyResult, filterMoods, List.mem_filter] at hm
      exact of_decide_eq_true hm.2
  · intro hempty
    simp [categorizeStep, assignMoods, hempty]

/-- Witness for C3: an off-vocabulary label is discarded and the record's
prior moods survive. -/
theorem mood_label_validation_witness :
    (categorizeStep (Except.ok (some ["disco_fever"]))
      { place_id := none, moods := some ["party_night"] }).moods = some ["party_night"] :=
  (mood_label_validation (some ["disco_fever"]) ["party_night"]).2 (by decide)

/-- C10: after a complete categorization run, every record in the written
list has a `moods` value that is an array (possibly empty) — for every
oracle behaviour (failed remote calls included) and every prior record
state whose `moods` is absent or an array, the field is present in the
output. -/
theorem moods_field_always_array :
    ∀ (orc : Nat → Except Unit (Option (List String))) (i : Nat) (bars : List MoodBar)
      (b : MoodBar), b ∈ categorizeRunAux orc i bars → b.moods.isSome = true := by
  intro orc i bars
  induction bars generalizing i with
  | nil => intro b hb; simp [categorizeRunAux] at hb
  | cons hd tl ih =>
    intro b hb
    simp only [categorizeRunAux, List.mem_cons] at hb
    rcases hb with hb | hb
    · subst hb
      cases horc : orc i with
      | ok parsed => simp [categorizeStep, assignMoods, horc]; split <;> simp
      | error e => simp [categorizeStep, horc]
    · exact ih (i + 1) b hb

/-- Witness for C10 on a one-record run whose classification call throws
and whose record had no prior moods field. -/
theorem moods_field_always_array_witness :
    (MoodBar.mk none (some [])).moods.isSome = true :=
  moods_field_always_array (fun _ => Except.error ()) 0 [{ place_id := none, moods := none }]
    (MoodBar.mk none (some [])) (by decide)

/-- C5: tag derivation.  `deriveVibes` returns exactly the rule table —
`dance_floor` lower-casing to `yes` contributes `party` and `girls-night`,
a rating at or above `4.2` contributes `dating` and `chill`, and when no
rule fires the result is `chill` alone — and the result is duplicate-free
(set semantics), so re-deriving from the same record and signal always
yields this same fixed set, never a growing list. -/
theorem derive_vibes_rule_table :
    ∀ (d : String) (r : Option Rat),
      (deriveVibes d r).Nodup ∧
      deriveVibes d r =
        (if jsToLower d = "yes" then
           (if ratingHigh r = true then ["party", "girls-night", "dating", "chill"]
            else ["party", "girls-night"])
         else
           (if ratingHigh r = true then ["dating", "chill"] else ["chill"])) := by
  intro d r
  by_cases h1 : jsToLower d = "yes" <;> by_cases h2 : ratingHigh r = true <;>
    simp [deriveVibes, h1, h2, jsSetDedup, jsSetDedupAux]

-- Inside quotes, a quote-free prefix is appended verbatim to the current
-- field (commas and newlines included).
theorem parseLineAux_quoted :
    ∀ (l suffix cur : List Char) (out : List String),
      (∀ c ∈ l, c ≠ '"') →
      parseLineAux (l ++ suffix) cur true out = parseLineAux suffix (cur ++ l) true out := by
  intro l
  induction l with
  | nil => intro suffix cur out _; simp
  | cons c rest ih =>
    intro suffix cur out h
    have hc : c ≠ '"' := h c (by simp)
    have hrest : ∀ x ∈ rest, x ≠ '"' := fun x hx => h x (by simp [hx])
    simp only [List.cons_append, parseLineAux]
    rw [if_neg hc, if_neg (by simp)]
    simp only [List.append_eq]
    rw [ih suffix (cur ++ [c]) out hrest]
    simp

-- Outside quotes, a prefix free of quotes, commas and newlines is
-- appended verbatim to the current field.
theorem parseLineAux_plain :
    ∀ (l suffix cur : List Char) (out : List String),
      (∀ c ∈ l, c ≠ '"' ∧ c ≠ ',' ∧ c ≠ '\n') →
      parseLineAux (l ++ suffix) cur false out = parseLineAux suffix (cur ++ l) false out := by
  intro l
  induction l with
  | nil => intro suffix cur out _; simp
  | cons c rest ih =>
    intro suffix cur out h
    have hc := h c (by simp)
    have hrest : ∀ x ∈ rest, x ≠ '"' ∧ x ≠ ',' ∧ x ≠ '\n' := fun x hx => h x (by simp [hx])
    simp only [List.cons_append, parseLineAux]
    rw [if_neg hc.1, if_neg (by simp [hc.2.1, hc.2.2])]
    simp only [List.append_eq]
    rw [ih suffix (cur ++ [c]) out hrest]
    simp

/-- C4 (amended): the tabular parser handles quoted fields containing the
comma delimiter (a quote-free quoted field parses as one field, trimmed),
and unquoted fields are returned trimmed; but embedded newlines inside
quotes are not supported (the text is split at newlines before field
parsing, so `"a\nb"` under a one-column header becomes the two rows `a`
and `b`), and doubled-quote escaping is not supported either (all quote
characters are dropped, so `"a""b"` parses to the field `ab`, not
`a"b`). -/
theorem csv_parse_amended :
    (∀ s : String, (∀ c ∈ s.data, c ≠ '"' ∧ c ≠ '\n') → s ≠ "" →
      parseCSVLine ("\"" ++ s ++ "\"") = [jsTrim s]) ∧
    (∀ s : String, (∀ c ∈ s.data, c ≠ '"' ∧ c ≠ ',' ∧ c ≠ '\n') → s ≠ "" →
      parseCSVLine s = [jsTrim s]) ∧
    parseCSVLine "\"a\"\"b\"" = ["ab"] ∧
    parseCSVvalues "h\n\"a\nb\"" = [["a"], ["b"]] := by
  refine ⟨?_, ?_, by decide, by decide⟩
  · intro s h hne
    obtain ⟨l⟩ := s
    have hl : ∀ c ∈ l, c ≠ '"' := fun c hc => (h c hc).1
    have hnil : l ≠ [] := by
      intro he
      subst he
      exact hne (by decide)
    have hdata : ("\"" ++ String.mk l ++ "\"").data = '"' :: (l ++ ['"']) := by
      simp [String.data_append]
    show parseLineAux ("\"" ++ String.mk l ++ "\"").data [] false [] = [jsTrim (String.mk l)]
    rw [hdata]
    rw [show parseLineAux ('"' :: (l ++ ['"'])) [] false []
        = parseLineAux (l ++ ['"']) [] true [] from by simp [parseLineAux]]
    rw [parseLineAux_quoted l ['"'] [] [] hl]
    simp [parseLineAux, hnil, clTrim]
  · intro s h hne
    obtain ⟨l⟩ := s
    have hnil : l ≠ [] := by
      intro he
      subst he
      exact hne (by decide)
    show parseLineAux (String.mk l).data [] false [] = [jsTrim (String.mk l)]
    rw [show (String.mk l).data = l ++ [] from by simp]
    rw [parseLineAux_plain l [] [] [] h]
    simp [parseLineAux, hnil, clTrim]

/-- Witness for C4 at a quoted field containing the delimiter and at an
unquoted field with surrounding whitespace. -/
theorem csv_parse_amended_witness :
    parseCSVLine "\"x, y\"" = [jsTrim "x, y"] ∧ parseCSVLine " ab " = [jsTrim " ab "] :=
  ⟨csv_parse_amended.1 "x, y" (by decide) (by decide),
   csv_parse_amended.2.1 " ab " (by decide) (by decide)⟩

/-- C4 counterexample: doubled-quote escaping does not produce a literal
quote (the field `"a""b"` parses to `ab`, not `a"b`), and a quoted field
containing a newline is torn into two separate rows (under a one-column
header, `"a\nb"` yields rows `a` and `b` instead of one field `a\nb`), so
the parser does not handle embedded newlines or doubled-quote escaping as
claimed. -/
theorem csv_parse_cex :
    parseCSVLine "\"a\"\"b\"" = ["ab"] ∧ (["ab"] : List String) ≠ ["a\"b"] ∧
    parseCSVvalues "h\n\"a\nb\"" = [["a"], ["b"]] ∧
    ([["a"], ["b"]] : List (List String)) ≠ [["a\nb"]] := by decide

/-- C6 counterexample: a row already carrying good, non-placeholder
coordinates (59.5, 18.2) is fed through the Photon pass while the remote
service answers with the city-center placeholder value
(59.31667, 18.06745); the pass overwrites the good coordinates with that
worse value unconditionally, with no specificity comparison, refuting the
preservation invariant. -/
theorem coordinate_preservation_cex :
    rowGood.lat = some (59.5 : Rat) ∧ rowGood.lng = some (18.2 : Rat) ∧
    ¬(rowGood.lat = some (59.31667 : Rat) ∧ rowGood.lng = some (18.06745 : Rat)) ∧
    (photonStep (fun _ => some { lng := (18.06745 : Rat), lat := (59.31667 : Rat) })
        { cache := [], calls := [] } rowGood).2
      = (some (59.31667 : Rat), some (18.06745 : Rat)) := by
  refine ⟨rfl, rfl, ?_, ?_⟩
  · rintro ⟨h1, h2⟩
    have h3 : (59.5 : Rat) = 59.31667 := by simpa [rowGood] using h1
    norm_num at h3
  · have hg : shouldGeocodeB (resolveLocation rowGood.correct_address rowGood.location
        rowGood.address) = true := by decide
    have hpa : photonAttempts (resolveLocation rowGood.correct_address rowGood.location
        rowGood.address) = true := by decide
    simp only [photonStep, hg, if_true]
    rw [show photonCacheUpdate
          (fun _ => some { lng := (18.06745 : Rat), lat := (59.31667 : Rat) })
          { cache := [], calls := [] }
          (resolveLocation rowGood.correct_address rowGood.location rowGood.address)
        = { cache := [(addressKey (resolveLocation rowGood.correct_address rowGood.location
              rowGood.address), { lng := (18.06745 : Rat), lat := (59.31667 : Rat) })],
            calls := [addressKey (resolveLocation rowGood.correct_address rowGood.location
              rowGood.address)] } from by simp [photonCacheUpdate, lookupCache, hpa]]
    rw [show lookupCache
          [(addressKey (resolveLocation rowGood.correct_address rowGood.location
              rowGood.address), { lng := (18.06745 : Rat), lat := (59.31667 : Rat) })]
          (addressKey (resolveLocation rowGood.correct_address rowGood.location rowGood.address))
        = some { lng := (18.06745 : Rat), lat := (59.31667 : Rat) } from by
          simp [lookupCache_singleton]]

/-- C6 (amended): only the Mapbox variant preserves previously resolved
coordinates — it skips geocoding whenever both coordinates are present,
non-zero and not the city-center placeholder pair (59.31667, 18.06745) —
while the Photon pass overwrites a row's coordinates with any successful
lookup result, whatever the prior values were. -/
theorem coordinate_preservation_amended :
    (∀ (geo : String → Option Coord) (row : CsvRow) (a b : Rat),
      row.lat = some a → row.lng = some b → a ≠ 0 → b ≠ 0 →
      ¬(a = (59.31667 : Rat) ∧ b = (18.06745 : Rat)) →
      mapboxStep geo row = (row.lat, row.lng)) ∧
    (∀ (geo : String → Option Coord) (row : CsvRow) (c : Coord),
      shouldGeocodeB (resolveLocation row.correct_address row.location row.address) = true →
      photonAttempts (resolveLocation row.correct_address row.location row.address) = true →
      geo (resolveLocation row.correct_address row.location row.address) = some c →
      (photonStep geo { cache := [], calls := [] } row).2 = (some c.lat, some c.lng)) := by
  constructor
  · intro geo row a b ha hb ha0 hb0 hp
    have h1 : jsFalsyNum row.lat = false := by simp [jsFalsyNum, ha, ha0]
    have h2 : jsFalsyNum row.lng = false := by simp [jsFalsyNum, hb, hb0]
    have h3 : ¬(row.lat = some (59.31667 : Rat) ∧ row.lng = some (18.06745 : Rat)) := by
      rintro ⟨x, y⟩
      rw [ha] at x
      rw [hb] at y
      exact hp ⟨by simpa using x, by simpa using y⟩
    have hguard : mapboxNeedsGeocode (stripQuotes (jsTrim row.location)) row.lat row.lng
        = false := by
      simp [mapboxNeedsGeocode, h1, h2, h3]
    simp [mapboxStep, hguard]
  · intro geo row c hg hpa hgl
    simp only [photonStep, hg, if_true]
    have hupd : photonCacheUpdate geo { cache := [], calls := [] }
        (resolveLocation row.correct_address row.location row.address)
        = { cache := [(addressKey (resolveLocation row.correct_address row.location
              row.address), c)],
            calls := [addressKey (resolveLocation row.correct_address row.location
              row.address)] } := by
      simp [photonCacheUpdate, lookupCache, hpa, hgl]
    rw [hupd]
    rw [show lookupCache
        [(addressKey (resolveLocation row.correct_address row.location row.address), c)]
        (addressKey (resolveLocation row.correct_address row.location row.address))
        = some c from by simp [lookupCache_singleton]]

/-- Witness for C6 at a concrete preserved Mapbox row and at a concrete
overwriting Photon lookup. -/
theorem coordinate_preservation_amended_witness :
    mapboxStep (fun _ => some { lng := 1, lat := 1 }) rowGood = (rowGood.lat, rowGood.lng) ∧
    (photonStep (fun _ => some { lng := 2, lat := 1 }) { cache := [], calls := [] }
        { location := "Bar Street 9" }).2 = (some 1, some 2) :=
  ⟨coordinate_preservation_amended.1 (fun _ => some { lng := 1, lat := 1 }) rowGood
      (59.5 : Rat) (18.2 : Rat) rfl rfl (by norm_num) (by norm_num)
      (fun h => absurd h.1 (by norm_num)),
   coordinate_preservation_amended.2 (fun _ => some { lng := 2, lat := 1 })
      { location := "Bar Street 9" } { lng := 2, lat := 1 } (by decide) (by decide) rfl⟩

/-- C7 counterexample: the Places-update script's export escape leaves a
value containing (only) a newline unquoted, although the claim requires
every newline-containing value to be quoted with doubled internal quotes,
and the file it writes starts with the header — no byte-order marker is
prepended to that tabular export. -/
theorem csv_export_escaping_cex :
    escapeUpd (some "a\nb") = "a\nb" ∧ ("a\nb" : String) ≠ "\"a\nb\"" ∧
    startsWithBom (buildUpdatedCsvContent [[some "a\nb"]]) = false := by decide

/-- C7 (amended): the unnamed export script's `escapeCsv` implements the
claimed rule on the trimmed value — the spec's scenario value
`O'Learys, "Best" bar` serializes to `"O'Learys, ""Best"" bar"` — and its
`bars-info.csv` content always begins with a byte-order marker; the
Places-update export instead quotes only on comma or quote (a value with
just a newline stays bare), writes no byte-order marker, and agrees with
`escapeCsv` on trimmed newline-free and CR-free values. -/
theorem csv_export_escaping_amended :
    escapeCsv (some oLearysIn) = oLearysOut ∧
    (∀ rows : List (List (Option String)), ∃ rest : String,
      buildInfoCsv rows = "﻿" ++ rest) ∧
    escapeUpd (some "a\nb") = "a\nb" ∧
    (∀ s : String, containsChar s '\n' = false → containsChar s '\r' = false →
      jsTrim s = s → escapeUpd (some s) = escapeCsv (some s)) := by
  refine ⟨by decide, fun rows => ⟨_, rfl⟩, by decide, ?_⟩
  intro s h1 h2 h3
  simp [escapeCsv, escapeUpd, h1, h2, h3]

/-- Witness for C7 on a plain already-trimmed value where the two escape
functions agree. -/
theorem csv_export_escaping_amended_witness :
    escapeUpd (some "plain value") = escapeCsv (some "plain value") :=
  csv_export_escaping_amended.2.2.2 "plain value" (by decide) (by decide) (by decide)

/-- C8: fatal precondition handling.  For each script, a missing input
file (`none`) or a missing required credential (`""`) makes the run end as
`ScriptResult.fatal 1` — exit status 1, taken before any row is processed
and before any output value is produced, so the previously persisted store
is untouched (only `ScriptResult.completed` carries written output). -/
theorem fatal_precondition_exit :
    (∀ geo : String → Option Coord, photonMain geo none = ScriptResult.fatal 1) ∧
    (∀ (geo : String → Option Coord) (input : Option (List CsvRow)),
      mapboxMain "" geo input = ScriptResult.fatal 1) ∧
    (∀ (token : String) (geo : String → Option Coord),
      mapboxMain token geo none = ScriptResult.fatal 1) ∧
    (∀ (lookups : Nat → Except String (Option PlaceHit)) (details : Nat → Option Rat)
       (input : Option (List CsvRow)),
      updateMain "" lookups details input = ScriptResult.fatal 1) ∧
    (∀ (apiKey : String) (lookups : Nat → Except String (Option PlaceHit))
       (details : Nat → Option Rat),
      updateMain apiKey lookups details none = ScriptResult.fatal 1) ∧
    (∀ (k : String) (orc : Nat → Except Unit (Option (List String)))
       (input : Option (List MoodBar)),
      categorizeMain "" k orc input = ScriptResult.fatal 1) ∧
    (∀ (g : String) (orc : Nat → Except Unit (Option (List String)))
       (input : Option (List MoodBar)),
      categorizeMain g "" orc input = ScriptResult.fatal 1) ∧
    (∀ (g k : String) (orc : Nat → Except Unit (Option (List String))),
      categorizeMain g k orc none = ScriptResult.fatal 1) := by
  refine ⟨fun geo => rfl, fun geo input => rfl, ?_, fun l d i => rfl, ?_, fun k o i => rfl,
    ?_, ?_⟩
  · intro token geo
    unfold mapboxMain
    split <;> rfl
  · intro apiKey lookups details
    unfold updateMain
    split <;> rfl
  · intro g orc input
    unfold categorizeMain
    split <;> rfl
  · intro g k orc
    unfold categorizeMain
    split
    · rfl
    · split <;> rfl

/-- C9: per-record failure isolation.  A failed remote lookup never aborts
the run: the Places-update and categorization loops emit exactly one
output record per input row for every oracle behaviour; a thrown Places
lookup leaves the row's coordinates as they were; a thrown classification
call leaves a previously assigned `moods` value unchanged; and a Photon
geocode miss on an uncached address leaves the row's coordinates
untouched. -/
theorem per_record_failure_isolation :
    (∀ (lookups : Nat → Except String (Option PlaceHit)) (details : Nat → Option Rat)
       (i : Nat) (rows : List CsvRow),
      (updateRunAux lookups details i rows).length = rows.length) ∧
    (∀ (row : CsvRow) (e : String) (d : Option Rat),
      (updateStep row (Except.error e) d).lat = row.lat ∧
      (updateStep row (Except.error e) d).lng = row.lng) ∧
    (∀ (orc : Nat → Except Unit (Option (List String))) (i : Nat) (bars : List MoodBar),
      (categorizeRunAux orc i bars).length = bars.length) ∧
    (∀ (bar : MoodBar) (p : List String) (e : Unit),
      bar.moods = some p → (categorizeStep (Except.error e) bar).moods = some p) ∧
    (∀ (geo : String → Option Coord) (st : GeoRun) (row : CsvRow),
      geo (resolveLocation row.correct_address row.location row.address) = none →
      lookupCache st.cache
        (addressKey (resolveLocation row.correct_address row.location row.address)) = none →
      (photonStep geo st row).2 = (row.lat, row.lng)) := by
  refine ⟨?_, ?_, ?_, ?_, ?_⟩
  · intro lookups details i rows
    induction rows generalizing i with
    | nil => rfl
    | cons r rest ih => simp [updateRunAux, ih]
  · intro row e d
    constructor <;> simp [updateStep, placeHasFix]
  · intro orc i bars
    induction bars generalizing i with
    | nil => rfl
    | cons b rest ih => simp [categorizeRunAux, ih]
  · intro bar p e h
    simp [categorizeStep, h]
  · intro geo st row hgeo hcache
    by_cases hg : shouldGeocodeB
        (resolveLocation row.correct_address row.location row.address) = true
    · simp only [photonStep, hg, if_true]
      have hcache1 : lookupCache (photonCacheUpdate geo st
          (resolveLocation row.correct_address row.location row.address)).cache
          (addressKey (resolveLocation row.correct_address row.location row.address))
          = none := by
        unfold photonCacheUpdate
        by_cases hc : (lookupCache st.cache
            (addressKey (resolveLocation row.correct_address row.location
              row.address))).isSome
        · rw [hcache] at hc
          simp at hc
        · by_cases hp : photonAttempts
              (resolveLocation row.correct_address row.location row.address) = true
          · simp [hc, hp, hgeo, hcache]
          · simp [hc, hp, hcache]
      rw [hcache1]
    · simp [photonStep, hg]

/-- Witness for C9: a record whose classification call throws keeps its
previously assigned moods, and a record whose Places lookup throws keeps
its coordinates. -/
theorem per_record_failure_isolation_witness :
    (categorizeStep (Except.error ()) { place_id := none, moods := some ["group_friends"] }).moods
      = some ["group_friends"] ∧
    (updateStep { location := "Baz Street 2" } (Except.error "boom") none).lat
      = ({ location := "Baz Street 2" } : CsvRow).lat :=
  ⟨per_record_failure_isolation.2.2.2.1 { place_id := none, moods := some ["group_friends"] }
      ["group_friends"] () rfl,
   (per_record_failure_isolation.2.1 { location := "Baz Street 2" } "boom" none).1⟩
